import Mathlib

/-!
Verification of the object-to-object attribute mapper (converter package).

The development shallowly embeds the Python sources:
  * converters.py : BaseConverter (engine setup and per-instance conversion)
  * parsers.py    : BaseParser / StrIntParser / IntStrParser (type coercion)
  * exceptions.py : ParsingError / ConfigError

Python runtime types that appear in the repository (int, str, bytes,
NoneType and typing.Optional wrappers) are embedded as the inductive `Ty`;
runtime values as the inductive `Value`.  Python dictionaries are embedded
as association lists with insert-or-overwrite update (`dinsert` /
`dictUpdate`) and first-match lookup (`dget`); since every dictionary the
code builds has unique keys, lookup position is irrelevant.  Exceptions are
embedded with `Except`.
-/

set_option autoImplicit false

namespace Converter

/-- Embedding of the Python type annotations used by the converter:
the concrete classes int, str, bytes, NoneType and the typing.Optional
wrapper. -/
inductive Ty where
  | int
  | str
  | bytes
  | noneType
  | optional (t : Ty)
  deriving DecidableEq

/-- Python's Optional[-] constructor.  typing normalises
Optional[NoneType] to NoneType and Optional[Optional[T]] to Optional[T]. -/
def mkOptional : Ty → Ty
  | Ty.noneType => Ty.noneType
  | Ty.optional t => Ty.optional t
  | t => Ty.optional t

/-- Embedding of the Python runtime values that flow through the
converter: ints, strings, bytes objects and None. -/
inductive Value where
  | vInt (n : Int)
  | vStr (s : String)
  | vBytes (bs : List Nat)
  | vNone
  deriving DecidableEq

/-- Embedding of Python's type(val), as used by
BaseConverter._get_origin_value_type. -/
def type_of : Value → Ty
  | Value.vInt _ => Ty.int
  | Value.vStr _ => Ty.str
  | Value.vBytes _ => Ty.bytes
  | Value.vNone => Ty.noneType

/-! ### Python dictionaries as association lists -/

/-- Python dict lookup d[k]: first entry with the given key (all
dictionaries built by the code have unique keys). -/
def dget {α : Type} {β : Type} [DecidableEq α] : List (α × β) → α → Option β
  | [], _ => Option.none
  | (k, v) :: rest, key => if k = key then some v else dget rest key

/-- Python dict item assignment d[k] = v: overwrite in place if the key
is present, otherwise append at the end (insertion order preserved). -/
def dinsert {α : Type} {β : Type} [DecidableEq α] : List (α × β) → α → β → List (α × β)
  | [], k, v => [(k, v)]
  | (k', v') :: rest, k, v => if k' = k then (k, v) :: rest else (k', v') :: dinsert rest k v

/-- Python dict.update(new) / dict(pairs): insert the new pairs left to
right, later pairs overwriting earlier ones with the same key. -/
def dictUpdate {α : Type} {β : Type} [DecidableEq α] (d : List (α × β)) (new : List (α × β)) :
    List (α × β) :=
  new.foldl (fun acc kv => dinsert acc kv.1 kv.2) d

/-! ### parsers.py -/

/-- Embedding of CPython's int(s) on str input (parsers.py line 52).
Accepts an optional sign followed by decimal digits; any other input
raises ValueError, embedded as Option.none. -/
def digitsToNatAux : List Char → Nat → Option Nat
  | [], acc => some acc
  | c :: cs, acc =>
    if c.isDigit then digitsToNatAux cs (acc * 10 + (c.toNat - 48)) else Option.none

/-- Decimal digit run to Nat; empty input is rejected. -/
def digitsToNat : List Char → Option Nat
  | [] => Option.none
  | l => digitsToNatAux l 0

/-- int(s) for a Python str s: ValueError is Option.none. -/
def pyStrToInt (s : String) : Option Int :=
  match s.data with
  | [] => Option.none
  | c :: cs =>
    if c = '-' then (digitsToNat cs).map (fun n => -(n : Int))
    else if c = '+' then (digitsToNat cs).map (fun n => (n : Int))
    else (digitsToNat (c :: cs)).map (fun n => (n : Int))

/-- str(n) for a Python int n (parsers.py line 43). -/
def pyIntToStr (n : Int) : String :=
  toString n

/-- A BaseParser subclass: its declared (origin_type, return_type) pair
expanded by get_parse_types, and its parse method.  parse returning
Option.none embeds the method raising ValueError. -/
structure Parser where
  parse_types : List (Ty × Ty)
  parse : Value → Option Value

/-- BaseParser.get_parse_types for declared origin type t1 and return
type t2: the three optionality variants registered per parser. -/
def get_parse_types (t1 t2 : Ty) : List (Ty × Ty) :=
  [(t1, mkOptional t2), (mkOptional t1, mkOptional t2), (t1, t2)]

/-- BaseParser.__call__: None passes through unchanged, any other value
is handed to parse. -/
def parserCall (p : Parser) (value : Value) : Option Value :=
  if value = Value.vNone then some Value.vNone else p.parse value

/-- StrIntParser.parse: int(value) on a str.  A non-str value never
reaches this parser through the registry (the lookup key is the value's
runtime type); the embedding rejects it. -/
def strIntParse : Value → Option Value
  | Value.vStr s => (pyStrToInt s).map Value.vInt
  | _ => Option.none

/-- IntStrParser.parse: str(value) on an int. -/
def intStrParse : Value → Option Value
  | Value.vInt n => some (Value.vStr (pyIntToStr n))
  | _ => Option.none

/-- StrIntParser: origin_type str, return_type int. -/
def StrIntParser : Parser :=
  { parse_types := get_parse_types Ty.str Ty.int, parse := strIntParse }

/-- IntStrParser: origin_type int, return_type str. -/
def IntStrParser : Parser :=
  { parse_types := get_parse_types Ty.int Ty.str, parse := intStrParse }

/-- BaseConverter._get_parsers: the default parser set. -/
def default_parsers : List Parser :=
  [StrIntParser, IntStrParser]

/-! ### exceptions.py and conversion-time Python exceptions -/

/-- ConfigError (exceptions.py), distinguished by which of the two
_setup_attrs checks raised it. -/
inductive ConfigErr where
  | emptyReturnHints
  | duplicateRenameTargets
  deriving DecidableEq

/-- Exceptions escaping BaseConverter.convert: ParsingError
(exceptions.py, carrying attr_from and attr_to), an uncaught KeyError
from a return_hints lookup, an uncaught AttributeError from getattr, and
the TypeError raised by keyword expansion on duplicate keyword names. -/
inductive ConvErr where
  | parsingError (attr_from attr_to : String)
  | keyError (attr : String)
  | attributeError (attr : String)
  | typeError
  deriving DecidableEq

/-! ### converters.py: configuration and engine state -/

/-- An origin instance: its attribute dictionary.  getattr is `dget`. -/
structure PyInstance where
  attrs : List (String × Value)

/-- The class-level configuration surface of a BaseConverter subclass:
the type hints of origin_class and return_class (as read by
get_type_hints), return_compute_fields, rename_pairs, return_type_hints,
exclude_fields, and the parser set returned by _get_parsers (a method
subclasses may override; default_parsers by default). -/
structure Config where
  origin_hints : List (String × Ty)
  return_class_hints : List (String × Ty)
  return_compute_fields : List (String × (PyInstance → Value))
  rename_pairs : List (String × String)
  return_type_hints : List (String × Ty)
  exclude_fields : List String
  parsers : List Parser

/-- The state a BaseConverter instance holds after __init__: the parser
registry and the attribute lists computed by _setup_attrs. -/
structure Engine where
  parsers_mapping : List ((Ty × Ty) × Parser)
  compute_fields_mapping : List (String × (PyInstance → Value))
  origin_attrs : List String
  return_hints : List (String × Ty)
  return_attrs : List String
  origin_rename : List String
  return_rename : List String
  origin_contains : List String

/-- BaseConverter._setup_parsers: registry keyed by the parsers' declared
(origin type, return type) pairs; later registrations overwrite earlier
ones for the same key. -/
def setup_parsers (ps : List Parser) : List ((Ty × Ty) × Parser) :=
  ps.foldl (fun acc p => dictUpdate acc (p.parse_types.map (fun tt => (tt, p)))) []

/-- self.return_hints after _setup_attrs: get_type_hints(return_class)
updated with dict(return_type_hints). -/
def resolved_hints (c : Config) : List (String × Ty) :=
  dictUpdate (dictUpdate [] c.return_class_hints) c.return_type_hints

/-- self._compute_fields_mapping: dict(return_compute_fields). -/
def compute_mapping (c : Config) : List (String × (PyInstance → Value)) :=
  dictUpdate [] c.return_compute_fields

/-- self.origin_attrs via _get_origin_attrs:
list(get_type_hints(origin_class).keys()). -/
def origin_attrs_of (c : Config) : List String :=
  (dictUpdate ([] : List (String × Ty)) c.origin_hints).map Prod.fst

/-- self.return_attrs = set(return_hints) - set(exclude_fields) -
computed fields.  Python set difference is embedded as a filter over the
(unique) key list, keeping a deterministic iteration order; no theorem
below depends on the order. -/
def return_attrs_of (c : Config) : List String :=
  ((resolved_hints c).map Prod.fst).filter
    (fun k => decide (k ∉ c.exclude_fields) && decide (k ∉ (compute_mapping c).map Prod.fst))

/-- self.origin_contains = (return_attrs - set(return_rename)) ∩
origin_attrs, embedded as a filter like `return_attrs_of`. -/
def origin_contains_of (c : Config) : List String :=
  (return_attrs_of c).filter
    (fun k => decide (k ∉ c.rename_pairs.map Prod.snd) && decide (k ∈ origin_attrs_of c))

/-- The pure part of _setup_attrs: every attribute list the engine
caches (the origin_rename / return_rename pair is
_parse_rename_mapping(rename_pairs), i.e. the unzipped pair lists). -/
def mkEngine (c : Config) : Engine :=
  { parsers_mapping := setup_parsers c.parsers
    compute_fields_mapping := compute_mapping c
    origin_attrs := origin_attrs_of c
    return_hints := resolved_hints c
    return_attrs := return_attrs_of c
    origin_rename := c.rename_pairs.map Prod.fst
    return_rename := c.rename_pairs.map Prod.snd
    origin_contains := origin_contains_of c }

/-- BaseConverter.__init__ / _setup_attrs with its two ConfigError
checks, in source order: empty return_hints first (len(return_hints)==0),
then duplicate rename destinations (len(set(return_rename)) !=
len(return_rename), embedded as List.Nodup). -/
def init (c : Config) : Except ConfigErr Engine :=
  if (mkEngine c).return_hints = [] then Except.error ConfigErr.emptyReturnHints
  else if (mkEngine c).return_rename.Nodup then Except.ok (mkEngine c)
  else Except.error ConfigErr.duplicateRenameTargets

/-! ### converters.py: per-instance conversion -/

/-- The body of the loop in BaseConverter._parse_rename for one
(attr_from, attr_to) pair: getattr (AttributeError if absent), the
return_hints lookup (uncaught KeyError if absent), the type-mismatch
test, and on mismatch the registry lookup and parser call whose KeyError
and ValueError are both re-raised as ParsingError(attr_from, attr_to). -/
def parse_field (e : Engine) (inst : PyInstance) (attr_from attr_to : String) :
    Except ConvErr Value :=
  match dget inst.attrs attr_from with
  | Option.none => Except.error (ConvErr.attributeError attr_from)
  | some val =>
    let val_type := type_of val
    match dget e.return_hints attr_to with
    | Option.none => Except.error (ConvErr.keyError attr_to)
    | some return_type =>
      if val_type ≠ return_type ∧ mkOptional val_type ≠ return_type ∧ val ≠ Value.vNone then
        match dget e.parsers_mapping (val_type, return_type) with
        | Option.none => Except.error (ConvErr.parsingError attr_from attr_to)
        | some p =>
          match parserCall p val with
          | Option.none => Except.error (ConvErr.parsingError attr_from attr_to)
          | some v => Except.ok v
      else Except.ok val

/-- The loop of BaseConverter._parse_rename: iterate the zipped name
pairs, building the result dictionary; the first exception aborts the
whole call. -/
def parse_rename_go (e : Engine) (inst : PyInstance) :
    List (String × String) → List (String × Value) → Except ConvErr (List (String × Value))
  | [], result => Except.ok result
  | (attr_from, attr_to) :: rest, result =>
    match parse_field e inst attr_from attr_to with
    | Except.error err => Except.error err
    | Except.ok val => parse_rename_go e inst rest (dinsert result attr_to val)

/-- BaseConverter._parse_rename. -/
def parse_rename (e : Engine) (origin_names return_names : List String) (inst : PyInstance) :
    Except ConvErr (List (String × Value)) :=
  parse_rename_go e inst (origin_names.zip return_names) []

/-- BaseConverter._parse_need_compute: result[attr] = func(instance) for
each configured compute pair (compute functions are embedded as total,
so this never raises). -/
def parse_need_compute (e : Engine) (inst : PyInstance) : List (String × Value) :=
  dictUpdate [] (e.compute_fields_mapping.map (fun af => (af.1, af.2 inst)))

/-- The call ReturnClass(**contains_result, **rename_result,
**need_compute_result): Python keyword expansion raises TypeError when
two dictionaries supply the same keyword; otherwise the constructed
dataclass instance is represented by its keyword dictionary. -/
def mkReturnClass (kwargs : List (String × Value)) : Except ConvErr (List (String × Value)) :=
  if (kwargs.map Prod.fst).Nodup then Except.ok kwargs else Except.error ConvErr.typeError

/-- BaseConverter.convert: same-name fields (via _parse_samename, i.e.
_parse_rename with origin_contains on both sides), then renamed fields,
then computed fields, merged into the ReturnClass constructor call. -/
def convert (e : Engine) (inst : PyInstance) : Except ConvErr (List (String × Value)) :=
  match parse_rename e e.origin_contains e.origin_contains inst with
  | Except.error err => Except.error err
  | Except.ok contains_result =>
    match parse_rename e e.origin_rename e.return_rename inst with
    | Except.error err => Except.error err
    | Except.ok rename_result =>
      mkReturnClass (contains_result ++ rename_result ++ parse_need_compute e inst)

/-- The pairs of (origin attribute, target attribute) that convert reads
from the instance and coerces: same-name pairs first, then rename pairs,
in processing order. -/
def processed_pairs (e : Engine) : List (String × String) :=
  e.origin_contains.zip e.origin_contains ++ e.origin_rename.zip e.return_rename

/-! ### Concrete configurations

Dataclass shapes and converter subclasses from tests/test_converters.py,
plus a few further configurations the theorems below are instantiated
at. -/

/-- A converter class with no compute fields, renames, extra hints or
exclusions, and the default parser set. -/
def simpleConfig (oh rh : List (String × Ty)) : Config :=
  { origin_hints := oh
    return_class_hints := rh
    return_compute_fields := []
    rename_pairs := []
    return_type_hints := []
    exclude_fields := []
    parsers := default_parsers }

/-- Shape A(attr1: int, attr2: str). -/
def hintsA : List (String × Ty) := [("attr1", Ty.int), ("attr2", Ty.str)]

/-- Shape B(attr1: int, attr2: int). -/
def hintsB : List (String × Ty) := [("attr1", Ty.int), ("attr2", Ty.int)]

/-- Shape C(attr1: int, attr2: int, attr3: int). -/
def hintsC : List (String × Ty) := [("attr1", Ty.int), ("attr2", Ty.int), ("attr3", Ty.int)]

/-- Shape D(attr1: bytes). -/
def hintsD : List (String × Ty) := [("attr1", Ty.bytes)]

/-- ABConverter. -/
def cfgAB : Config := simpleConfig hintsA hintsB

/-- ADConverter. -/
def cfgAD : Config := simpleConfig hintsA hintsD

/-- The instance A(1, "1"). -/
def instA : PyInstance := ⟨[("attr1", Value.vInt 1), ("attr2", Value.vStr "1")]⟩

/-- The compute function lambda x: x.attr1 (total embedding: a missing
attribute yields None rather than AttributeError; instA has attr1). -/
def computeAttr1 : PyInstance → Value :=
  fun x => (dget x.attrs "attr1").getD Value.vNone

/-- ACComputeConverter: compute attr3 from attr1. -/
def cfgACCompute : Config :=
  { simpleConfig hintsA hintsC with return_compute_fields := [("attr3", computeAttr1)] }

/-- DoubleRename: two rename pairs with the same destination. -/
def cfgDup : Config :=
  { simpleConfig hintsA hintsB with
      rename_pairs := [("attr1", "attr2"), ("attr1", "attr2")] }

/-- A target shape with no type hints at all (EmptyTypeHints). -/
def cfgNoHints : Config := simpleConfig hintsA []

/-- A target whose only hinted field is excluded: the resolved target
field set (hints minus exclusions minus computed) is empty, but the hint
dictionary itself is not. -/
def cfgEmptyResolved : Config :=
  { simpleConfig hintsA [("attr1", Ty.int)] with exclude_fields := ["attr1"] }

/-- A rename destination that is also a computed field. -/
def cfgRenameComputeOverlap : Config :=
  { origin_hints := [("attr1", Ty.int)]
    return_class_hints := [("attr1", Ty.int), ("attr3", Ty.int)]
    return_compute_fields := [("attr3", fun _ => Value.vInt 0)]
    rename_pairs := [("attr1", "attr3")]
    return_type_hints := []
    exclude_fields := []
    parsers := default_parsers }

/-- The instance with attr1 = 1 only. -/
def instAttr1 : PyInstance := ⟨[("attr1", Value.vInt 1)]⟩

/-- An excluded field that is also a rename destination. -/
def cfgExcludeRename : Config :=
  { origin_hints := [("attr1", Ty.int), ("attr2", Ty.int)]
    return_class_hints := hintsC
    return_compute_fields := []
    rename_pairs := [("attr1", "attr3")]
    return_type_hints := []
    exclude_fields := ["attr3"]
    parsers := default_parsers }

/-- The instance with attr1 = 1, attr2 = 2. -/
def instTwoInts : PyInstance := ⟨[("attr1", Value.vInt 1), ("attr2", Value.vInt 2)]⟩

/-- A same-name field that cannot be bridged (str into bytes) next to a
rename pair whose destination has no declared type. -/
def cfgMissingHintClash : Config :=
  { origin_hints := [("a", Ty.str)]
    return_class_hints := [("a", Ty.bytes)]
    return_compute_fields := []
    rename_pairs := [("x", "y")]
    return_type_hints := []
    exclude_fields := []
    parsers := default_parsers }

/-- The instance with a = "1", x = 0. -/
def instAX : PyInstance := ⟨[("a", Value.vStr "1"), ("x", Value.vInt 0)]⟩

/-- A rename pair whose destination has no declared type, with every
other field well-behaved. -/
def cfgMissingHint : Config :=
  { origin_hints := [("a", Ty.int)]
    return_class_hints := [("a", Ty.int)]
    return_compute_fields := []
    rename_pairs := [("x", "y")]
    return_type_hints := []
    exclude_fields := []
    parsers := default_parsers }

/-- The instance with a = 1, x = 0. -/
def instAXInts : PyInstance := ⟨[("a", Value.vInt 1), ("x", Value.vInt 0)]⟩

/-- A same-name engine whose int-typed field receives None. -/
def cfgNullable : Config := simpleConfig [("attr1", Ty.int)] [("attr1", Ty.int)]

/-- The instance with attr1 = None. -/
def instNull : PyInstance := ⟨[("attr1", Value.vNone)]⟩

/-! ### Dictionary lemmas -/

theorem mem_of_dget {α β : Type} [DecidableEq α] {l : List (α × β)} {k : α} {v : β}
    (h : dget l k = some v) : (k, v) ∈ l := by
  induction l with
  | nil => simp [dget] at h
  | cons kv rest ih =>
    obtain ⟨k', v'⟩ := kv
    simp only [dget] at h
    split at h
    · next heq =>
      cases h
      simp [heq]
    · exact List.mem_cons_of_mem _ (ih h)

theorem dget_eq_none_iff {α β : Type} [DecidableEq α] {l : List (α × β)} {k : α} :
    dget l k = Option.none ↔ k ∉ l.map Prod.fst := by
  induction l with
  | nil => simp [dget]
  | cons kv rest ih =>
    obtain ⟨k', v'⟩ := kv
    simp only [dget, List.map_cons, List.mem_cons]
    split
    · next heq => simp [heq]
    · next hne =>
      rw [ih]
      constructor
      · intro h hmem
        rcases hmem with h1 | h2
        · exact hne h1.symm
        · exact h h2
      · intro h hmem
        exact h (Or.inr hmem)

theorem dget_eq_some_of_mem {α β : Type} [DecidableEq α] {l : List (α × β)} {k : α} {v : β}
    (hnd : (l.map Prod.fst).Nodup) (hmem : (k, v) ∈ l) : dget l k = some v := by
  induction l with
  | nil => simp at hmem
  | cons kv rest ih =>
    obtain ⟨k', v'⟩ := kv
    simp only [List.map_cons, List.nodup_cons] at hnd
    rcases List.mem_cons.mp hmem with heq | hmem'
    · cases heq
      simp [dget]
    · have hk : k' ≠ k := by
        intro h
        exact hnd.1 (h ▸ List.mem_map_of_mem Prod.fst hmem')
      simp only [dget, if_neg hk]
      exact ih hnd.2 hmem'

theorem dinsert_of_not_mem_keys {α β : Type} [DecidableEq α] {l : List (α × β)} {k : α} (v : β)
    (h : k ∉ l.map Prod.fst) : dinsert l k v = l ++ [(k, v)] := by
  induction l with
  | nil => rfl
  | cons kv rest ih =>
    obtain ⟨k', v'⟩ := kv
    simp only [List.map_cons, List.mem_cons] at h
    push_neg at h
    simp only [dinsert, List.cons_append]
    rw [if_neg (fun hh => h.1 hh.symm), ih h.2]

theorem keys_dinsert {α β : Type} [DecidableEq α] (l : List (α × β)) (k : α) (v : β) :
    (dinsert l k v).map Prod.fst =
      if k ∈ l.map Prod.fst then l.map Prod.fst else l.map Prod.fst ++ [k] := by
  induction l with
  | nil => simp [dinsert]
  | cons kv rest ih =>
    obtain ⟨k', v'⟩ := kv
    by_cases hkk : k' = k
    · subst hkk
      simp [dinsert]
    · simp only [dinsert, if_neg hkk, List.map_cons, ih]
      by_cases hmem : k ∈ rest.map Prod.fst
      · rw [if_pos hmem,
          if_pos (show k ∈ k' :: rest.map Prod.fst from List.mem_cons_of_mem _ hmem)]
      · rw [if_neg hmem, if_neg (show k ∉ k' :: rest.map Prod.fst from by
          intro h
          rcases List.mem_cons.mp h with h | h
          · exact hkk h.symm
          · exact hmem h), List.cons_append]

theorem keys_dictUpdate_nodup {α β : Type} [DecidableEq α] {d : List (α × β)}
    (new : List (α × β)) (hnd : (d.map Prod.fst).Nodup) :
    ((dictUpdate d new).map Prod.fst).Nodup := by
  induction new generalizing d with
  | nil => exact hnd
  | cons kv rest ih =>
    simp only [dictUpdate, List.foldl_cons]
    apply ih
    rw [keys_dinsert]
    split
    · exact hnd
    · next hmem =>
      simp only [List.nodup_append, List.nodup_cons]
      exact ⟨hnd, by simp, by simpa using hmem⟩

theorem dictUpdate_eq_append {α β : Type} [DecidableEq α] {acc new : List (α × β)}
    (hdisj : ∀ k ∈ new.map Prod.fst, k ∉ acc.map Prod.fst)
    (hnd : (new.map Prod.fst).Nodup) : dictUpdate acc new = acc ++ new := by
  induction new generalizing acc with
  | nil => simp [dictUpdate]
  | cons kv rest ih =>
    obtain ⟨k, v⟩ := kv
    simp only [List.map_cons, List.nodup_cons] at hnd
    simp only [dictUpdate, List.foldl_cons]
    have hk : k ∉ acc.map Prod.fst := hdisj k (by simp)
    rw [show (List.foldl (fun acc kv => dinsert acc kv.1 kv.2) (dinsert acc k v) rest) =
        dictUpdate (dinsert acc k v) rest from rfl]
    rw [dinsert_of_not_mem_keys v hk, ih, List.append_assoc]
    · rfl
    · intro k' hk'
      rw [List.map_append]
      simp only [List.mem_append]
      intro hmem
      rcases hmem with h | h
      · exact hdisj k' (by simp [hk']) h
      · simp at h
        exact hnd.1 (h ▸ hk')
    · exact hnd.2

theorem dictUpdate_nil_eq {α β : Type} [DecidableEq α] {new : List (α × β)}
    (hnd : (new.map Prod.fst).Nodup) : dictUpdate [] new = new := by
  rw [dictUpdate_eq_append (by simp) hnd, List.nil_append]

/-! ### zip lemmas -/

theorem zip_self_eq {α : Type} (l : List α) : l.zip l = l.map (fun a => (a, a)) := by
  induction l with
  | nil => rfl
  | cons x xs ih => simp [List.zip_cons_cons, ih]

theorem map_snd_zip_eq_take {α β : Type} (l₁ : List α) (l₂ : List β) :
    (l₁.zip l₂).map Prod.snd = l₂.take l₁.length := by
  induction l₁ generalizing l₂ with
  | nil => simp
  | cons x xs ih =>
    cases l₂ with
    | nil => simp
    | cons y ys => simp [List.zip_cons_cons, ih]

/-! ### Lemmas about the _parse_rename loop -/

theorem go_ok_forall {e : Engine} {inst : PyInstance} {pairs : List (String × String)}
    {acc res : List (String × Value)}
    (h : parse_rename_go e inst pairs acc = Except.ok res) :
    ∀ p ∈ pairs, ∃ w, parse_field e inst p.1 p.2 = Except.ok w := by
  induction pairs generalizing acc with
  | nil => simp
  | cons q rest ih =>
    obtain ⟨f, t⟩ := q
    simp only [parse_rename_go] at h
    intro p hp
    rcases List.mem_cons.mp hp with hp | hp
    · subst hp
      cases hpf : parse_field e inst f t with
      | error err => rw [hpf] at h; cases h
      | ok w => exact ⟨w, rfl⟩
    · cases hpf : parse_field e inst f t with
      | error err => rw [hpf] at h; cases h
      | ok w =>
        rw [hpf] at h
        exact ih h p hp

theorem go_forall_ok {e : Engine} {inst : PyInstance} {pairs : List (String × String)}
    (acc : List (String × Value))
    (h : ∀ p ∈ pairs, ∃ w, parse_field e inst p.1 p.2 = Except.ok w) :
    ∃ res, parse_rename_go e inst pairs acc = Except.ok res := by
  induction pairs generalizing acc with
  | nil => exact ⟨acc, rfl⟩
  | cons q rest ih =>
    obtain ⟨f, t⟩ := q
    obtain ⟨w, hw⟩ := h (f, t) (List.mem_cons_self _ _)
    simp only [parse_rename_go, hw]
    exact ih _ (fun p hp => h p (List.mem_cons_of_mem _ hp))

theorem go_error_first {e : Engine} {inst : PyInstance} {pre post : List (String × String)}
    {f t : String} {err : ConvErr} (acc : List (String × Value))
    (hpre : ∀ p ∈ pre, ∃ w, parse_field e inst p.1 p.2 = Except.ok w)
    (hft : parse_field e inst f t = Except.error err) :
    parse_rename_go e inst (pre ++ (f, t) :: post) acc = Except.error err := by
  induction pre generalizing acc with
  | nil => simp [parse_rename_go, hft]
  | cons q rest ih =>
    obtain ⟨f', t'⟩ := q
    obtain ⟨w, hw⟩ := hpre (f', t') (List.mem_cons_self _ _)
    simp only [List.cons_append, parse_rename_go, hw]
    exact ih _ (fun p hp => hpre p (List.mem_cons_of_mem _ hp))

theorem go_error_unique {e : Engine} {inst : PyInstance} {pairs : List (String × String)}
    {f t : String} {err : ConvErr} (acc : List (String × Value))
    (hmem : (f, t) ∈ pairs)
    (hft : parse_field e inst f t = Except.error err)
    (hothers : ∀ p ∈ pairs, p ≠ (f, t) → ∃ w, parse_field e inst p.1 p.2 = Except.ok w) :
    parse_rename_go e inst pairs acc = Except.error err := by
  induction pairs generalizing acc with
  | nil => simp at hmem
  | cons q rest ih =>
    obtain ⟨f', t'⟩ := q
    by_cases hq : (f', t') = (f, t)
    · cases hq
      simp [parse_rename_go, hft]
    · obtain ⟨w, hw⟩ := hothers (f', t') (List.mem_cons_self _ _) hq
      simp only [parse_rename_go, hw]
      have hmem' : (f, t) ∈ rest := by
        rcases List.mem_cons.mp hmem with h | h
        · exact absurd h.symm hq
        · exact h
      exact ih _ hmem' (fun p hp hne => hothers p (List.mem_cons_of_mem _ hp) hne)

theorem go_keys {e : Engine} {inst : PyInstance} {pairs : List (String × String)}
    {acc res : List (String × Value)}
    (h : parse_rename_go e inst pairs acc = Except.ok res)
    (hnd : (pairs.map Prod.snd).Nodup)
    (hdisj : ∀ t ∈ pairs.map Prod.snd, t ∉ acc.map Prod.fst) :
    res.map Prod.fst = acc.map Prod.fst ++ pairs.map Prod.snd := by
  induction pairs generalizing acc with
  | nil =>
    cases h
    simp
  | cons q rest ih =>
    obtain ⟨f, t⟩ := q
    simp only [List.map_cons, List.nodup_cons] at hnd
    simp only [parse_rename_go] at h
    cases hpf : parse_field e inst f t with
    | error err => rw [hpf] at h; cases h
    | ok w =>
      rw [hpf] at h
      have ht : t ∉ acc.map Prod.fst := hdisj t (by simp)
      have hkeys : (dinsert acc t w).map Prod.fst = acc.map Prod.fst ++ [t] := by
        rw [keys_dinsert, if_neg ht]
      rw [ih h hnd.2, hkeys, List.append_assoc, List.singleton_append, List.map_cons]
      intro t' ht'
      rw [hkeys]
      simp only [List.mem_append, List.mem_singleton]
      intro hh
      rcases hh with hh | hh
      · exact hdisj t' (List.mem_cons_of_mem _ ht') hh
      · exact hnd.1 (hh ▸ ht')

theorem go_preserve_mem {e : Engine} {inst : PyInstance} {pairs : List (String × String)}
    {acc res : List (String × Value)} {t : String} {w : Value}
    (h : parse_rename_go e inst pairs acc = Except.ok res)
    (hmem : (t, w) ∈ acc) (hnot : t ∉ pairs.map Prod.snd) : (t, w) ∈ res := by
  induction pairs generalizing acc with
  | nil =>
    cases h
    exact hmem
  | cons q rest ih =>
    obtain ⟨f, t'⟩ := q
    simp only [List.map_cons, List.mem_cons] at hnot
    push_neg at hnot
    simp only [parse_rename_go] at h
    cases hpf : parse_field e inst f t' with
    | error err => rw [hpf] at h; cases h
    | ok w' =>
      rw [hpf] at h
      have : (t, w) ∈ dinsert acc t' w' := by
        clear h ih
        induction acc with
        | nil => simp at hmem
        | cons kv acc' ih' =>
          obtain ⟨k, v⟩ := kv
          simp only [dinsert]
          split
          · next heq =>
            rcases List.mem_cons.mp hmem with hh | hh
            · cases hh
              exact absurd heq hnot.1
            · exact List.mem_cons_of_mem _ hh
          · rcases List.mem_cons.mp hmem with hh | hh
            · exact hh ▸ List.mem_cons_self _ _
            · exact List.mem_cons_of_mem _ (ih' hh)
      exact ih h this hnot.2

theorem go_mem {e : Engine} {inst : PyInstance} {pairs : List (String × String)}
    {acc res : List (String × Value)} {f t : String} {w : Value}
    (h : parse_rename_go e inst pairs acc = Except.ok res)
    (hnd : (pairs.map Prod.snd).Nodup)
    (hdisj : ∀ t' ∈ pairs.map Prod.snd, t' ∉ acc.map Prod.fst)
    (hmem : (f, t) ∈ pairs)
    (hpf : parse_field e inst f t = Except.ok w) : (t, w) ∈ res := by
  induction pairs generalizing acc with
  | nil => simp at hmem
  | cons q rest ih =>
    obtain ⟨f', t'⟩ := q
    simp only [List.map_cons, List.nodup_cons] at hnd
    simp only [parse_rename_go] at h
    rcases List.mem_cons.mp hmem with hq | hq
    · cases hq
      rw [hpf] at h
      have hin : (t, w) ∈ dinsert acc t w := by
        rw [dinsert_of_not_mem_keys w (hdisj t (by simp))]
        simp
      exact go_preserve_mem h hin hnd.1
    · cases hpf' : parse_field e inst f' t' with
      | error err => rw [hpf'] at h; cases h
      | ok w' =>
        rw [hpf'] at h
        refine ih h hnd.2 ?_ hq
        intro u hu
        rw [keys_dinsert]
        split
        · exact hdisj u (List.mem_cons_of_mem _ hu)
        · simp only [List.mem_append, List.mem_singleton]
          intro hh
          rcases hh with hh | hh
          · exact hdisj u (List.mem_cons_of_mem _ hu) hh
          · exact hnd.1 (hh ▸ hu)

/-! ### Lemmas about engine construction -/

theorem mem_return_attrs {c : Config} {k : String} :
    k ∈ return_attrs_of c ↔
      k ∈ (resolved_hints c).map Prod.fst ∧ k ∉ c.exclude_fields ∧
        k ∉ (compute_mapping c).map Prod.fst := by
  unfold return_attrs_of
  rw [List.mem_filter]
  simp

theorem mem_origin_contains {c : Config} {k : String} :
    k ∈ origin_contains_of c ↔
      k ∈ return_attrs_of c ∧ k ∉ c.rename_pairs.map Prod.snd ∧
        k ∈ origin_attrs_of c := by
  unfold origin_contains_of
  rw [List.mem_filter]
  simp

theorem return_hints_keys_nodup (c : Config) :
    ((resolved_hints c).map Prod.fst).Nodup :=
  keys_dictUpdate_nodup _ (keys_dictUpdate_nodup _ (by simp))

theorem compute_keys_nodup (c : Config) :
    ((compute_mapping c).map Prod.fst).Nodup :=
  keys_dictUpdate_nodup _ (by simp)

theorem origin_contains_nodup (c : Config) : (origin_contains_of c).Nodup :=
  ((return_hints_keys_nodup c).filter _).filter _

theorem init_ok_elim {c : Config} {e : Engine} (h : init c = Except.ok e) :
    e = mkEngine c ∧ e.return_rename.Nodup := by
  unfold init at h
  split at h
  · cases h
  · split at h
    · next hnd =>
      cases h
      exact ⟨rfl, hnd⟩
    · cases h

/-! ### Structural lemmas about convert -/

theorem compute_keys_map (e : Engine) (inst : PyInstance) :
    (e.compute_fields_mapping.map (fun af => (af.1, af.2 inst))).map Prod.fst =
      e.compute_fields_mapping.map Prod.fst := by
  rw [List.map_map]
  rfl

theorem parse_need_compute_eq (c : Config) (inst : PyInstance) :
    parse_need_compute (mkEngine c) inst =
      (mkEngine c).compute_fields_mapping.map (fun af => (af.1, af.2 inst)) := by
  unfold parse_need_compute
  apply dictUpdate_nil_eq
  rw [compute_keys_map]
  exact compute_keys_nodup c

theorem convert_ok_elim {e : Engine} {inst : PyInstance} {kwargs : List (String × Value)}
    (h : convert e inst = Except.ok kwargs) :
    ∃ cres rres, parse_rename e e.origin_contains e.origin_contains inst = Except.ok cres ∧
      parse_rename e e.origin_rename e.return_rename inst = Except.ok rres ∧
      kwargs = cres ++ rres ++ parse_need_compute e inst ∧ (kwargs.map Prod.fst).Nodup := by
  revert h
  unfold convert
  cases hc : parse_rename e e.origin_contains e.origin_contains inst with
  | error err => intro h; cases h
  | ok cres =>
    cases hr : parse_rename e e.origin_rename e.return_rename inst with
    | error err => intro h; cases h
    | ok rres =>
      unfold mkReturnClass
      dsimp only
      by_cases hnd : ((cres ++ rres ++ parse_need_compute e inst).map Prod.fst).Nodup
      · rw [if_pos hnd]
        intro h
        cases h
        exact ⟨cres, rres, rfl, rfl, rfl, hnd⟩
      · rw [if_neg hnd]
        intro h
        cases h

/-- If convert succeeds, each processed field pair's parse result is the
value keyed by the pair's target name in the kwargs handed to the target
constructor. -/
theorem convert_ok_field {c : Config} {e : Engine} {inst : PyInstance}
    (hinit : init c = Except.ok e) {f t : String} {w : Value}
    (hpair : (f, t) ∈ processed_pairs e)
    (hpf : parse_field e inst f t = Except.ok w)
    {kwargs : List (String × Value)} (hconv : convert e inst = Except.ok kwargs) :
    dget kwargs t = some w := by
  obtain ⟨heq, hndr⟩ := init_ok_elim hinit
  obtain ⟨cres, rres, hc, hr, hkw, hnd⟩ := convert_ok_elim hconv
  unfold parse_rename at hc hr
  have hoc_nodup : e.origin_contains.Nodup := by
    rw [heq]
    exact origin_contains_nodup c
  rcases List.mem_append.mp hpair with hs | hrn
  · have hnds : ((e.origin_contains.zip e.origin_contains).map Prod.snd).Nodup := by
      rw [map_snd_zip_eq_take, List.take_length]
      exact hoc_nodup
    have hmem : (t, w) ∈ cres := go_mem hc hnds (by simp) hs hpf
    have hin : (t, w) ∈ kwargs := by
      rw [hkw]
      exact List.mem_append_left _ (List.mem_append_left _ hmem)
    exact dget_eq_some_of_mem hnd hin
  · have hnds : ((e.origin_rename.zip e.return_rename).map Prod.snd).Nodup := by
      rw [map_snd_zip_eq_take]
      exact (List.take_sublist _ _).nodup hndr
    have hmem : (t, w) ∈ rres := go_mem hr hnds (by simp) hrn hpf
    have hin : (t, w) ∈ kwargs := by
      rw [hkw]
      exact List.mem_append_left _ (List.mem_append_right _ hmem)
    exact dget_eq_some_of_mem hnd hin

/-- If convert succeeds, every processed field pair parsed successfully. -/
theorem convert_ok_forall {e : Engine} {inst : PyInstance} {kwargs : List (String × Value)}
    (hconv : convert e inst = Except.ok kwargs) :
    ∀ p ∈ processed_pairs e, ∃ w, parse_field e inst p.1 p.2 = Except.ok w := by
  obtain ⟨cres, rres, hc, hr, _, _⟩ := convert_ok_elim hconv
  unfold parse_rename at hc hr
  intro p hp
  rcases List.mem_append.mp hp with hs | hrn
  · exact go_ok_forall hc p hs
  · exact go_ok_forall hr p hrn

/-! ### Characterisation of parse_field -/

theorem parse_field_passthrough {e : Engine} {inst : PyInstance} {f t : String} {v : Value}
    {rt : Ty} (hv : dget inst.attrs f = some v) (hrt : dget e.return_hints t = some rt)
    (h : type_of v = rt ∨ mkOptional (type_of v) = rt ∨ v = Value.vNone) :
    parse_field e inst f t = Except.ok v := by
  have hcon : ¬(type_of v ≠ rt ∧ mkOptional (type_of v) ≠ rt ∧ v ≠ Value.vNone) := by
    intro hcon
    rcases h with h | h | h
    · exact hcon.1 h
    · exact hcon.2.1 h
    · exact hcon.2.2 h
  unfold parse_field
  rw [hv, hrt]
  dsimp only
  rw [if_neg hcon]

theorem parse_field_keyerror {e : Engine} {inst : PyInstance} {f t : String} {v : Value}
    (hv : dget inst.attrs f = some v) (hrt : dget e.return_hints t = Option.none) :
    parse_field e inst f t = Except.error (ConvErr.keyError t) := by
  unfold parse_field
  rw [hv, hrt]

theorem parse_field_coerce_ok {e : Engine} {inst : PyInstance} {f t : String} {v w : Value}
    {rt : Ty} {p : Parser} (hv : dget inst.attrs f = some v)
    (hrt : dget e.return_hints t = some rt)
    (h1 : type_of v ≠ rt) (h2 : mkOptional (type_of v) ≠ rt) (h3 : v ≠ Value.vNone)
    (hp : dget e.parsers_mapping (type_of v, rt) = some p)
    (hw : parserCall p v = some w) :
    parse_field e inst f t = Except.ok w := by
  unfold parse_field
  rw [hv, hrt]
  dsimp only
  rw [if_pos ⟨h1, h2, h3⟩, hp]
  dsimp only
  rw [hw]

theorem parse_field_registry_miss {e : Engine} {inst : PyInstance} {f t : String} {v : Value}
    {rt : Ty} (hv : dget inst.attrs f = some v) (hrt : dget e.return_hints t = some rt)
    (h1 : type_of v ≠ rt) (h2 : mkOptional (type_of v) ≠ rt) (h3 : v ≠ Value.vNone)
    (hp : dget e.parsers_mapping (type_of v, rt) = Option.none) :
    parse_field e inst f t = Except.error (ConvErr.parsingError f t) := by
  unfold parse_field
  rw [hv, hrt]
  dsimp only
  rw [if_pos ⟨h1, h2, h3⟩, hp]

theorem parse_field_coerce_fail {e : Engine} {inst : PyInstance} {f t : String} {v : Value}
    {rt : Ty} {p : Parser} (hv : dget inst.attrs f = some v)
    (hrt : dget e.return_hints t = some rt)
    (h1 : type_of v ≠ rt) (h2 : mkOptional (type_of v) ≠ rt) (h3 : v ≠ Value.vNone)
    (hp : dget e.parsers_mapping (type_of v, rt) = some p)
    (hw : parserCall p v = Option.none) :
    parse_field e inst f t = Except.error (ConvErr.parsingError f t) := by
  unfold parse_field
  rw [hv, hrt]
  dsimp only
  rw [if_pos ⟨h1, h2, h3⟩, hp]
  dsimp only
  rw [hw]

/-- A successful parse of a field whose origin value is None yields None
(the type-mismatch branch is skipped by the isinstance(val, NoneType)
test). -/
theorem parse_field_ok_none {e : Engine} {inst : PyInstance} {f t : String} {w : Value}
    (hv : dget inst.attrs f = some Value.vNone)
    (hok : parse_field e inst f t = Except.ok w) : w = Value.vNone := by
  cases hrt : dget e.return_hints t with
  | none =>
    rw [parse_field_keyerror hv hrt] at hok
    cases hok
  | some rt =>
    rw [parse_field_passthrough hv hrt (Or.inr (Or.inr rfl))] at hok
    cases hok
    rfl

/-! ### Claims -/

/-- C1: For every origin instance and every same-name or renamed field
whose runtime-observed value type differs from the target's declared
type (and is not its Optional-wrapped form) and for which a coercion is
registered under (observed type, declared type), convert applies exactly
that coercion and the resulting target attribute equals the coercion's
output (for a None value the registered coercion's null-passthrough
output and convert's null short-circuit coincide); in particular, with
shapes A(attr1: int, attr2: str) and B(attr1: int, attr2: int),
converting A(1, "1") through a same-name engine yields B(1, 1). -/
theorem C1_registered_coercion_applied
    (c : Config) (e : Engine) (inst : PyInstance) (hinit : init c = Except.ok e)
    (f t : String) (hpair : (f, t) ∈ processed_pairs e)
    (v : Value) (hv : dget inst.attrs f = some v)
    (rt : Ty) (hrt : dget e.return_hints t = some rt)
    (h1 : type_of v ≠ rt) (h2 : mkOptional (type_of v) ≠ rt)
    (p : Parser) (hp : dget e.parsers_mapping (type_of v, rt) = some p)
    (w : Value) (hw : parserCall p v = some w)
    (kwargs : List (String × Value)) (hconv : convert e inst = Except.ok kwargs) :
    dget kwargs t = some w := by
  by_cases h3 : v = Value.vNone
  · subst h3
    have hw' : w = Value.vNone := by
      unfold parserCall at hw
      rw [if_pos rfl] at hw
      cases hw
      rfl
    subst hw'
    exact convert_ok_field hinit hpair
      (parse_field_passthrough hv hrt (Or.inr (Or.inr rfl))) hconv
  · exact convert_ok_field hinit hpair
      (parse_field_coerce_ok hv hrt h1 h2 h3 hp hw) hconv

/-- C1 witness: the round-trip scenario A(1, "1") to B(1, 1) with the
default same-name engine; attr2 is coerced by StrIntParser and the
result carries its output 1. -/
theorem C1_witness :
    dget [("attr1", Value.vInt 1), ("attr2", Value.vInt 1)] "attr2" = some (Value.vInt 1) :=
  C1_registered_coercion_applied cfgAB (mkEngine cfgAB) instA rfl "attr2" "attr2"
    (by decide) (Value.vStr "1") rfl Ty.int rfl (by decide) (by decide)
    StrIntParser rfl (Value.vInt 1) rfl
    [("attr1", Value.vInt 1), ("attr2", Value.vInt 1)] rfl

/-- C2: For every origin instance, every same-name or renamed field
whose runtime-observed value type exactly matches the target's declared
type, or is the Optional-wrapped form of it, is passed through to the
target attribute unchanged with no coercion applied. -/
theorem C2_matching_type_passthrough
    (c : Config) (e : Engine) (inst : PyInstance) (hinit : init c = Except.ok e)
    (f t : String) (hpair : (f, t) ∈ processed_pairs e)
    (v : Value) (hv : dget inst.attrs f = some v)
    (rt : Ty) (hrt : dget e.return_hints t = some rt)
    (hm : type_of v = rt ∨ mkOptional (type_of v) = rt)
    (kwargs : List (String × Value)) (hconv : convert e inst = Except.ok kwargs) :
    dget kwargs t = some v :=
  convert_ok_field hinit hpair
    (parse_field_passthrough hv hrt (hm.elim Or.inl (fun h => Or.inr (Or.inl h)))) hconv

/-- C2 witness: attr1 of A(1, "1") has runtime type int matching B's
declared int and is passed through unchanged. -/
theorem C2_witness :
    dget [("attr1", Value.vInt 1), ("attr2", Value.vInt 1)] "attr1" = some (Value.vInt 1) :=
  C2_matching_type_passthrough cfgAB (mkEngine cfgAB) instA rfl "attr1" "attr1"
    (by decide) (Value.vInt 1) rfl Ty.int rfl (Or.inl rfl)
    [("attr1", Value.vInt 1), ("attr2", Value.vInt 1)] rfl

/-- C3: For every origin instance and every same-name or renamed field
whose non-null value's type mismatches the target declared type, if no
coercion is registered for the (observed type, declared type) pair, or
the registered coercion rejects the value, convert raises a ParsingError
carrying exactly the origin field name and the target field name of that
field pair (every other processed pair parses successfully, so this pair
is the one that fails). -/
theorem C3_parsing_error_names_pair
    (c : Config) (e : Engine) (inst : PyInstance) (hinit : init c = Except.ok e)
    (f t : String) (hpair : (f, t) ∈ processed_pairs e)
    (hothers : ∀ p ∈ processed_pairs e, p ≠ (f, t) →
      ∃ w, parse_field e inst p.1 p.2 = Except.ok w)
    (v : Value) (hv : dget inst.attrs f = some v) (h3 : v ≠ Value.vNone)
    (rt : Ty) (hrt : dget e.return_hints t = some rt)
    (h1 : type_of v ≠ rt) (h2 : mkOptional (type_of v) ≠ rt)
    (hfail : dget e.parsers_mapping (type_of v, rt) = Option.none ∨
      ∃ p, dget e.parsers_mapping (type_of v, rt) = some p ∧ parserCall p v = Option.none) :
    convert e inst = Except.error (ConvErr.parsingError f t) := by
  obtain ⟨heq, hndr⟩ := init_ok_elim hinit
  have hpf : parse_field e inst f t = Except.error (ConvErr.parsingError f t) := by
    rcases hfail with hp | ⟨p, hp, hw⟩
    · exact parse_field_registry_miss hv hrt h1 h2 h3 hp
    · exact parse_field_coerce_fail hv hrt h1 h2 h3 hp hw
  rcases List.mem_append.mp hpair with hs | hrn
  · have hgo := go_error_unique ([] : List (String × Value)) hs hpf
      (fun p hp hne => hothers p (List.mem_append_left _ hp) hne)
    unfold convert parse_rename
    rw [hgo]
  · have hsame : ∀ p ∈ e.origin_contains.zip e.origin_contains, p ≠ (f, t) := by
      intro p hp hcontra
      subst hcontra
      have ht : t ∈ e.return_rename := (List.of_mem_zip hrn).2
      rw [zip_self_eq] at hp
      obtain ⟨a, ha, hpa⟩ := List.mem_map.mp hp
      injection hpa with hf ht2
      subst hf
      subst ht2
      rw [heq] at ha ht
      exact (mem_origin_contains.mp ha).2.1 ht
    obtain ⟨cres, hcres⟩ := go_forall_ok ([] : List (String × Value))
      (fun p hp => hothers p (List.mem_append_left _ hp) (hsame p hp))
    have hgo := go_error_unique ([] : List (String × Value)) hrn hpf
      (fun p hp hne => hothers p (List.mem_append_right _ hp) hne)
    unfold convert parse_rename
    rw [hcres]
    dsimp only
    rw [hgo]

/-- C3 witness: the ADConverter scenario — A(1, "1") into D(attr1:
bytes): int into bytes has no registered coercion, so convert raises
ParsingError("attr1", "attr1"). -/
theorem C3_witness :
    convert (mkEngine cfgAD) instA = Except.error (ConvErr.parsingError "attr1" "attr1") :=
  C3_parsing_error_names_pair cfgAD (mkEngine cfgAD) instA rfl "attr1" "attr1"
    (by decide)
    (by
      intro p hp hne
      rw [show processed_pairs (mkEngine cfgAD) = [("attr1", "attr1")] from rfl] at hp
      simp at hp
      exact absurd hp hne)
    (Value.vInt 1) rfl (by decide) Ty.bytes rfl (by decide) (by decide)
    (Or.inl rfl)

/-- C4: For every origin instance and every same-name or renamed field
whose value is the null sentinel, convert assigns null to the
corresponding target attribute without invoking any coercion, regardless
of which converters are registered and regardless of the declared types
involved. -/
theorem C4_null_bypass
    (c : Config) (e : Engine) (inst : PyInstance) (hinit : init c = Except.ok e)
    (f t : String) (hpair : (f, t) ∈ processed_pairs e)
    (hv : dget inst.attrs f = some Value.vNone)
    (kwargs : List (String × Value)) (hconv : convert e inst = Except.ok kwargs) :
    dget kwargs t = some Value.vNone := by
  obtain ⟨w, hw⟩ := convert_ok_forall hconv (f, t) hpair
  have hwn := parse_field_ok_none hv hw
  subst hwn
  exact convert_ok_field hinit hpair hw hconv

/-- C4 witness: attr1 = None converted into an int-typed target field
arrives as None with no coercion consulted. -/
theorem C4_witness : dget [("attr1", Value.vNone)] "attr1" = some Value.vNone :=
  C4_null_bypass cfgNullable (mkEngine cfgNullable) instNull rfl "attr1" "attr1"
    (by decide) rfl [("attr1", Value.vNone)] rfl

/-- C5: For every configured computed field (target_name, compute_fn)
and every origin instance, the target attribute target_name in the
result of convert equals compute_fn(instance) exactly, with no type
check and no coercion applied to the returned value. -/
theorem C5_compute_exact
    (c : Config) (e : Engine) (inst : PyInstance) (hinit : init c = Except.ok e)
    (t : String) (fn : PyInstance → Value)
    (hfn : dget e.compute_fields_mapping t = some fn)
    (kwargs : List (String × Value)) (hconv : convert e inst = Except.ok kwargs) :
    dget kwargs t = some (fn inst) := by
  obtain ⟨heq, _⟩ := init_ok_elim hinit
  obtain ⟨cres, rres, hc, hr, hkw, hnd⟩ := convert_ok_elim hconv
  have hmemc : (t, fn) ∈ (mkEngine c).compute_fields_mapping := heq ▸ mem_of_dget hfn
  have hmem2 : (t, fn inst) ∈ parse_need_compute e inst := by
    rw [heq, parse_need_compute_eq]
    exact List.mem_map.mpr ⟨(t, fn), hmemc, rfl⟩
  have hin : (t, fn inst) ∈ kwargs := by
    rw [hkw]
    exact List.mem_append_right _ hmem2
  exact dget_eq_some_of_mem hnd hin

/-- C5 witness: the ACComputeConverter scenario — attr3 is computed by
lambda x: x.attr1 and the result of converting A(1, "1") carries exactly
that function's output 1. -/
theorem C5_witness :
    dget [("attr1", Value.vInt 1), ("attr2", Value.vInt 1), ("attr3", Value.vInt 1)] "attr3" =
      some (computeAttr1 instA) :=
  C5_compute_exact cfgACCompute (mkEngine cfgACCompute) instA rfl "attr3" computeAttr1 rfl
    [("attr1", Value.vInt 1), ("attr2", Value.vInt 1), ("attr3", Value.vInt 1)] rfl

/-! ### Keys of the three result dictionaries -/

theorem parse_rename_keys_samename {c : Config} {inst : PyInstance}
    {cres : List (String × Value)}
    (hc : parse_rename (mkEngine c) (mkEngine c).origin_contains
      (mkEngine c).origin_contains inst = Except.ok cres) :
    cres.map Prod.fst = (mkEngine c).origin_contains := by
  unfold parse_rename at hc
  have hnd :
      (((mkEngine c).origin_contains.zip (mkEngine c).origin_contains).map Prod.snd).Nodup := by
    rw [map_snd_zip_eq_take, List.take_length]
    exact origin_contains_nodup c
  have h := go_keys hc hnd (by simp)
  rw [map_snd_zip_eq_take, List.take_length] at h
  simpa using h

theorem parse_rename_keys_rename {c : Config} {inst : PyInstance}
    {rres : List (String × Value)}
    (hndr : (mkEngine c).return_rename.Nodup)
    (hr : parse_rename (mkEngine c) (mkEngine c).origin_rename
      (mkEngine c).return_rename inst = Except.ok rres) :
    rres.map Prod.fst = (mkEngine c).return_rename := by
  unfold parse_rename at hr
  have hlen : (mkEngine c).origin_rename.length = (mkEngine c).return_rename.length := by
    show (c.rename_pairs.map Prod.fst).length = (c.rename_pairs.map Prod.snd).length
    simp
  have hnd :
      (((mkEngine c).origin_rename.zip (mkEngine c).return_rename).map Prod.snd).Nodup := by
    rw [map_snd_zip_eq_take, hlen, List.take_length]
    exact hndr
  have h := go_keys hr hnd (by simp)
  rw [map_snd_zip_eq_take, hlen, List.take_length] at h
  simpa using h

theorem parse_need_compute_keys (c : Config) (inst : PyInstance) :
    (parse_need_compute (mkEngine c) inst).map Prod.fst =
      (mkEngine c).compute_fields_mapping.map Prod.fst := by
  rw [parse_need_compute_eq]
  exact compute_keys_map _ inst

/-- C6 counterexample: the claim predicts a ConfigurationError whenever
the resolved target field set (hints minus excluded minus computed) is
empty, but the code only checks the hint dictionary itself.  With one
hinted field that is excluded, initialization succeeds and the engine's
resolved target field set (return_attrs) is empty. -/
theorem C6_counterexample :
    Except.map Engine.return_attrs (init cfgEmptyResolved) = Except.ok [] := rfl

/-- C6 amended: initialization raises ConfigurationError exactly when
the union of the target shape's declared type hints with the extra type
annotations is empty, before subtracting excluded and computed fields;
when that union is non-empty and rename destinations are unique,
initialization succeeds. -/
theorem C6_empty_hint_union_configerror (c : Config) :
    (resolved_hints c = [] → init c = Except.error ConfigErr.emptyReturnHints) ∧
    (resolved_hints c ≠ [] → (c.rename_pairs.map Prod.snd).Nodup →
      init c = Except.ok (mkEngine c)) := by
  constructor
  · intro h
    have h' : (mkEngine c).return_hints = [] := h
    unfold init
    rw [if_pos h']
  · intro h1 h2
    have h1' : ¬ (mkEngine c).return_hints = [] := h1
    have h2' : (mkEngine c).return_rename.Nodup := h2
    unfold init
    rw [if_neg h1', if_pos h2']

/-- C6 witness: a target shape with no hints at all fails with
ConfigurationError (the EmptyTypeHints test), while the ABConverter
configuration initializes successfully. -/
theorem C6_witness :
    init cfgNoHints = Except.error ConfigErr.emptyReturnHints ∧
      init cfgAB = Except.ok (mkEngine cfgAB) :=
  ⟨(C6_empty_hint_union_configerror cfgNoHints).1 rfl,
    (C6_empty_hint_union_configerror cfgAB).2 (by decide) (by decide)⟩

/-- C7: For every configuration whose rename pairs contain two pairs
with the same target-field name, engine initialization raises a
ConfigurationError. -/
theorem C7_duplicate_rename_configerror (c : Config)
    (hdup : ¬ (c.rename_pairs.map Prod.snd).Nodup) :
    ∃ err, init c = Except.error err := by
  have hdup' : ¬ (mkEngine c).return_rename.Nodup := hdup
  unfold init
  by_cases hempty : (mkEngine c).return_hints = []
  · rw [if_pos hempty]
    exact ⟨_, rfl⟩
  · rw [if_neg hempty, if_neg hdup']
    exact ⟨_, rfl⟩

/-- C7 witness: the DoubleRename configuration (two pairs renaming into
attr2) fails to initialize. -/
theorem C7_witness : ∃ err, init cfgDup = Except.error err :=
  C7_duplicate_rename_configerror cfgDup (by decide)

/-- C8 counterexample: a configuration whose rename destination attr3 is
also a computed field passes initialization, yet the rename result
mapping and the compute result mapping both supply attr3 — the three
routing sets do not partition the supplied fields, and the constructor
call fails on the duplicate keyword (TypeError). -/
theorem C8_counterexample :
    (init cfgRenameComputeOverlap).isOk = true ∧
    Except.map (fun r => r.map Prod.fst)
      (parse_rename (mkEngine cfgRenameComputeOverlap)
        (mkEngine cfgRenameComputeOverlap).origin_rename
        (mkEngine cfgRenameComputeOverlap).return_rename instAttr1) = Except.ok ["attr3"] ∧
    (parse_need_compute (mkEngine cfgRenameComputeOverlap) instAttr1).map Prod.fst =
      ["attr3"] ∧
    convert (mkEngine cfgRenameComputeOverlap) instAttr1 = Except.error ConvErr.typeError :=
  ⟨rfl, rfl, rfl, rfl⟩

/-- C8 amended: for every configuration passing initialization, the
same-name result mapping is disjoint from both the rename result mapping
and the compute result mapping; if additionally no rename destination is
a computed field name, all three mappings are pairwise disjoint. -/
theorem C8_routing_disjointness
    (c : Config) (e : Engine) (inst : PyInstance) (hinit : init c = Except.ok e)
    (cres rres : List (String × Value))
    (hc : parse_rename e e.origin_contains e.origin_contains inst = Except.ok cres)
    (hr : parse_rename e e.origin_rename e.return_rename inst = Except.ok rres) :
    (∀ k ∈ cres.map Prod.fst, k ∉ rres.map Prod.fst) ∧
    (∀ k ∈ cres.map Prod.fst, k ∉ (parse_need_compute e inst).map Prod.fst) ∧
    ((∀ u ∈ e.return_rename, dget e.compute_fields_mapping u = Option.none) →
      ∀ k ∈ rres.map Prod.fst, k ∉ (parse_need_compute e inst).map Prod.fst) := by
  obtain ⟨heq, hndr⟩ := init_ok_elim hinit
  subst heq
  have hck := parse_rename_keys_samename hc
  have hrk := parse_rename_keys_rename hndr hr
  have hpk := parse_need_compute_keys c inst
  refine ⟨?_, ?_, ?_⟩
  · intro k hk
    rw [hck] at hk
    rw [hrk]
    exact (mem_origin_contains.mp hk).2.1
  · intro k hk
    rw [hck] at hk
    rw [hpk]
    exact (mem_return_attrs.mp (mem_origin_contains.mp hk).1).2.2
  · intro hno k hk
    rw [hrk] at hk
    rw [hpk]
    exact dget_eq_none_iff.mp (hno k hk)

/-- C8 witness: for the ABConverter engine on A(1, "1") the same-name
keys avoid the (empty) rename keys and the (empty) compute keys, and
with no rename destination computed, all three are pairwise disjoint. -/
theorem C8_witness :
    (∀ k ∈ ([("attr1", Value.vInt 1), ("attr2", Value.vInt 1)] :
        List (String × Value)).map Prod.fst,
      k ∉ (([] : List (String × Value)).map Prod.fst)) ∧
    (∀ k ∈ ([("attr1", Value.vInt 1), ("attr2", Value.vInt 1)] :
        List (String × Value)).map Prod.fst,
      k ∉ (parse_need_compute (mkEngine cfgAB) instA).map Prod.fst) ∧
    ((∀ u ∈ (mkEngine cfgAB).return_rename,
        dget (mkEngine cfgAB).compute_fields_mapping u = Option.none) →
      ∀ k ∈ (([] : List (String × Value)).map Prod.fst),
        k ∉ (parse_need_compute (mkEngine cfgAB) instA).map Prod.fst) :=
  C8_routing_disjointness cfgAB (mkEngine cfgAB) instA rfl
    [("attr1", Value.vInt 1), ("attr2", Value.vInt 1)] [] rfl rfl

/-- C9 counterexample: attr3 is in exclude_fields, yet the rename pair
(attr1, attr3) makes convert supply a value for attr3 to the target
constructor — an excluded field receives a value. -/
theorem C9_counterexample :
    (init cfgExcludeRename).isOk = true ∧
    Except.map (fun kw => dget kw "attr3") (convert (mkEngine cfgExcludeRename) instTwoInts) =
      Except.ok (some (Value.vInt 1)) :=
  ⟨rfl, rfl⟩

/-- C9 amended: no excluded field receives a value through the same-name
pathway (exclusion removes it from the same-name routing set); an
excluded field named as a rename destination or computed field still
receives a value. -/
theorem C9_exclude_no_same_name_value
    (c : Config) (e : Engine) (inst : PyInstance) (hinit : init c = Except.ok e)
    (x : String) (hx : x ∈ c.exclude_fields)
    (cres : List (String × Value))
    (hc : parse_rename e e.origin_contains e.origin_contains inst = Except.ok cres) :
    dget cres x = Option.none := by
  obtain ⟨heq, _⟩ := init_ok_elim hinit
  subst heq
  rw [dget_eq_none_iff, parse_rename_keys_samename hc]
  intro hmem
  exact (mem_return_attrs.mp (mem_origin_contains.mp hmem).1).2.1 hx

/-- C9 witness: for the exclude-attr3 engine on an instance with attr1 =
1 and attr2 = 2, the same-name result carries no value for attr3. -/
theorem C9_witness :
    dget [("attr1", Value.vInt 1), ("attr2", Value.vInt 2)] "attr3" = Option.none :=
  C9_exclude_no_same_name_value cfgExcludeRename (mkEngine cfgExcludeRename) instTwoInts rfl
    "attr3" (by decide) [("attr1", Value.vInt 1), ("attr2", Value.vInt 2)] rfl

/-- C10 counterexample: with a rename destination y lacking a declared
type, the claim predicts convert raises a plain KeyError on any
instance; but a same-name field that cannot be bridged is processed
first, so convert raises ParsingError("a", "a") instead (and with an
empty hint dictionary initialization would already raise ConfigError,
contradicting the unconditional "initialization nevertheless
succeeds"). -/
theorem C10_counterexample :
    dget (mkEngine cfgMissingHintClash).return_hints "y" = Option.none ∧
    (init cfgMissingHintClash).isOk = true ∧
    convert (mkEngine cfgMissingHintClash) instAX =
      Except.error (ConvErr.parsingError "a" "a") :=
  ⟨rfl, rfl, rfl⟩

/-- C10 amended: for every configuration passing initialization that
contains a rename pair whose target-field name has no declared type in
the resolved target type-hint mapping, convert raises a plain KeyError
from the target-type lookup for that field (not a ParsingError) on every
instance for which all same-name fields and all earlier rename pairs
process successfully and the pair's origin attribute is readable. -/
theorem C10_missing_hint_keyerror
    (c : Config) (e : Engine) (inst : PyInstance) (_hinit : init c = Except.ok e)
    (pre post : List (String × String)) (f t : String)
    (hsplit : e.origin_rename.zip e.return_rename = pre ++ (f, t) :: post)
    (hpre : ∀ p ∈ pre, ∃ w, parse_field e inst p.1 p.2 = Except.ok w)
    (hsame : ∀ p ∈ e.origin_contains.zip e.origin_contains,
      ∃ w, parse_field e inst p.1 p.2 = Except.ok w)
    (v : Value) (hv : dget inst.attrs f = some v)
    (hmiss : dget e.return_hints t = Option.none) :
    convert e inst = Except.error (ConvErr.keyError t) := by
  have hpf := parse_field_keyerror hv hmiss
  obtain ⟨cres, hcres⟩ := go_forall_ok ([] : List (String × Value)) hsame
  have hgo : parse_rename_go e inst (e.origin_rename.zip e.return_rename) [] =
      Except.error (ConvErr.keyError t) := by
    rw [hsplit]
    exact go_error_first [] hpre hpf
  unfold convert parse_rename
  rw [hcres]
  dsimp only
  rw [hgo]

/-- C10 witness: a well-behaved same-name field next to the rename pair
(x, y) with y unhinted — convert fails with the uncaught KeyError for
y. -/
theorem C10_witness :
    convert (mkEngine cfgMissingHint) instAXInts = Except.error (ConvErr.keyError "y") :=
  C10_missing_hint_keyerror cfgMissingHint (mkEngine cfgMissingHint) instAXInts rfl
    [] [] "x" "y" rfl (by simp)
    (by
      intro p hp
      rw [show (mkEngine cfgMissingHint).origin_contains.zip
          (mkEngine cfgMissingHint).origin_contains = [("a", "a")] from rfl] at hp
      simp at hp
      subst hp
      exact ⟨Value.vInt 1, rfl⟩)
    (Value.vInt 0) rfl rfl

end Converter
